import Mathlib

/-!
Shallow embedding of the Inventory & Sales Ledger Engine of the
`inventory` repository (Django application, `inventory/models.py` and
`inventory/views.py`), together with proofs about the embedded operations.

Monetary values (`DecimalField` with 2 decimal places) are modelled as
rationals; `Decimal.quantize(Decimal("0.01"))` under Python's default
decimal context rounds half-to-even (banker's rounding), which is
modelled by `quantize2`.  Machine integers of the source are unbounded
Python integers, modelled by `Int`/`Nat` directly.
-/

namespace Inventory

/-- Round a rational to the nearest integer, ties to the even integer.
This is Python `decimal`'s default `ROUND_HALF_EVEN` behaviour. -/
def roundHalfEven (x : ℚ) : ℤ :=
  let f := ⌊x⌋
  let frac := x - (f : ℚ)
  if frac < 1 / 2 then f
  else if 1 / 2 < frac then f + 1
  else if f % 2 = 0 then f else f + 1

/-- Round a rational to the nearest integer, ties away from zero.
This is Python `decimal`'s `ROUND_HALF_UP` behaviour (used here only to
state what the specification asks for, in order to compare it with the
source's behaviour). -/
def roundHalfUp (x : ℚ) : ℤ :=
  if 0 ≤ x then ⌊x + 1 / 2⌋ else -⌊-x + 1 / 2⌋

/-- `Decimal.quantize(Decimal("0.01"))` under the default context:
round to two decimal places, ties to even. -/
def quantize2 (x : ℚ) : ℚ := (roundHalfEven (x * 100) : ℚ) / 100

/-- Rounding to two decimal places with ties away from zero, as the
specification's words ("half-up") prescribe. -/
def quantize2up (x : ℚ) : ℚ := (roundHalfUp (x * 100) : ℚ) / 100

/-- `x` is representable with two decimal digits (the stored form of
every `DecimalField(decimal_places=2)` column). -/
def Is2dp (x : ℚ) : Prop := (x * 100).den = 1

instance (x : ℚ) : Decidable (Is2dp x) := by unfold Is2dp; infer_instance

/-! ### Stock ledger (`Stock` rows keyed by warehouse × product × part) -/

/-- The identity of a `Stock` row: `unique_together = (warehouse, product, part)`.
Foreign keys are modelled by numeric ids; `product`/`part` are nullable. -/
structure StockKey where
  warehouse : Nat
  product : Option Nat
  part : Option Nat
deriving DecidableEq

/-- The stock table: an association list from row identity to the stored
`quantity`.  Quantities are stored as `Int` so that non-negativity is a
provable invariant rather than a typing artefact. -/
abbrev Ledger := List (StockKey × Int)

/-- Quantity on hand for a key; a missing row reads as quantity 0
(the `get_or_create(..., defaults={"quantity": 0})` behaviour). -/
def Ledger.getQty : Ledger → StockKey → Int
  | [], _ => 0
  | p :: rest, k => if p.1 = k then p.2 else Ledger.getQty rest k

/-- Store a quantity for a key, creating the row if absent. -/
def Ledger.setQty : Ledger → StockKey → Int → Ledger
  | [], k, q => [(k, q)]
  | p :: rest, k, q => if p.1 = k then (k, q) :: rest else p :: Ledger.setQty rest k q

/-- All stored quantities are non-negative. -/
def Ledger.nonneg (l : Ledger) : Prop := ∀ p ∈ l, 0 ≤ p.2

instance (l : Ledger) : Decidable l.nonneg := by
  unfold Ledger.nonneg; infer_instance

/-- Errors raised by the stock code (`ValueError`s in the source). -/
inductive StockError where
  | warehouseRequired
  | insufficientStock
  | transferNeedsBothWarehouses
  | unknownMovementType
deriving DecidableEq

/-- Embeds `_adjust_stock(warehouse, delta, product, part)`: require a
warehouse, read (or lazily create) the row, fail if the new quantity
would be negative, otherwise store it. -/
def adjustStock (l : Ledger) (warehouse : Option Nat) (delta : Int)
    (product : Option Nat) (part : Option Nat) : Except StockError Ledger :=
  match warehouse with
  | none => .error .warehouseRequired
  | some w =>
    let k : StockKey := ⟨w, product, part⟩
    let newQty := l.getQty k + delta
    if newQty < 0 then .error .insufficientStock
    else .ok (l.setQty k newQty)

/-- A `StockMovement` row.  `movement_type` is the stored string
(`"in"`, `"out"`, `"transfer"`, `"loss"`). -/
structure StockMovement where
  movement_type : String
  warehouse_from : Option Nat
  warehouse_to : Option Nat
  product : Option Nat
  part : Option Nat
  quantity : Nat
deriving DecidableEq

/-- Embeds `StockMovement.apply`. -/
def StockMovement.apply (m : StockMovement) (l : Ledger) : Except StockError Ledger :=
  if m.movement_type = "transfer" then
    if m.warehouse_from.isSome && m.warehouse_to.isSome then
      match adjustStock l m.warehouse_from (-(m.quantity : Int)) m.product m.part with
      | .error e => .error e
      | .ok l1 => adjustStock l1 m.warehouse_to (m.quantity : Int) m.product m.part
    else .error .transferNeedsBothWarehouses
  else if m.movement_type = "in" then
    adjustStock l m.warehouse_to (m.quantity : Int) m.product m.part
  else if m.movement_type = "out" then
    adjustStock l m.warehouse_from (-(m.quantity : Int)) m.product m.part
  else if m.movement_type = "loss" then
    adjustStock l m.warehouse_from (-(m.quantity : Int)) m.product m.part
  else .error .unknownMovementType

/-- The state an enclosing transaction commits: the new ledger on
success, the untouched ledger on error (rollback). -/
def runExcept (l : Ledger) (r : Except StockError Ledger) : Ledger :=
  match r with
  | .ok l' => l'
  | .error _ => l

/-- One `apply` call as seen by the database: commit on success, keep
the previous state on error. -/
def applyOrKeep (l : Ledger) (m : StockMovement) : Ledger :=
  runExcept l (m.apply l)

/-- Apply a list of movements, stopping at the first error
(`transaction.atomic` over a loop of `apply` calls). -/
def applyMovList (l : Ledger) : List StockMovement → Except StockError Ledger
  | [] => .ok l
  | m :: rest =>
    match m.apply l with
    | .error e => .error e
    | .ok l' => applyMovList l' rest

/-! ### Sale aggregate (`Sale`, `SaleItem`, `SalePayment`) -/

/-- A `SaleItem` row.  `line_total_*` are the stored computed columns. -/
structure SaleItem where
  product : Option Nat
  part : Option Nat
  quantity : Nat
  unit_price_uzs : ℚ
  unit_price_usd : ℚ
  discount_uzs : ℚ
  discount_usd : ℚ
  line_total_uzs : ℚ
  line_total_usd : ℚ
deriving DecidableEq

/-- Embeds `SaleItem.save`: recompute the stored line totals. -/
def SaleItem.saveCompute (it : SaleItem) : SaleItem :=
  { it with
    line_total_uzs := quantize2 ((it.quantity : ℚ) * it.unit_price_uzs - it.discount_uzs)
    line_total_usd := quantize2 ((it.quantity : ℚ) * it.unit_price_usd - it.discount_usd) }

/-- A `SalePayment` row (the fields `recompute_totals` reads). -/
structure SalePayment where
  method : String
  amount_uzs : ℚ
  amount_usd : ℚ
deriving DecidableEq

/-- A `Sale` row together with its owned items and payments. -/
structure Sale where
  warehouse : Nat
  discount_type : String
  discount_value : ℚ
  items : List SaleItem
  payments : List SalePayment
  subtotal_uzs : ℚ
  subtotal_usd : ℚ
  total_uzs : ℚ
  total_usd : ℚ
  total_paid_uzs : ℚ
  total_paid_usd : ℚ
  change_due_uzs : ℚ
  change_due_usd : ℚ
  status : String
  completed_at : Option Nat
deriving DecidableEq

/-- `sum((item.line_total_uzs for item in items), Decimal("0.00"))`. -/
def Sale.itemsSubtotalUZS (s : Sale) : ℚ := (s.items.map SaleItem.line_total_uzs).sum

def Sale.itemsSubtotalUSD (s : Sale) : ℚ := (s.items.map SaleItem.line_total_usd).sum

/-- The UZS discount as computed by `recompute_totals`: set for the
`percent` and `amount` policies, `0.00` otherwise. -/
def Sale.discountUZS (s : Sale) : ℚ :=
  if s.discount_type = "percent" then
    quantize2 (s.itemsSubtotalUZS * s.discount_value / 100)
  else if s.discount_type = "amount" then s.discount_value
  else 0

/-- The USD discount as computed by `recompute_totals`: the source sets
it only under the `percent` policy (the `amount` branch assigns
`discount_uzs` alone), so it stays `0.00` for every other policy. -/
def Sale.discountUSD (s : Sale) : ℚ :=
  if s.discount_type = "percent" then
    quantize2 (s.itemsSubtotalUSD * s.discount_value / 100)
  else 0

/-- The discount the specification's words prescribe (§4.2 / claim C4):
in each currency independently, the percent-policy discount rounded
half-up, the fixed `discount_value` under the amount policy, zero under
the none policy.  Written from the spec, to be compared with the
source's `Sale.discountUZS`/`Sale.discountUSD`. -/
def specDiscountUZS (s : Sale) : ℚ :=
  if s.discount_type = "percent" then
    quantize2up (s.itemsSubtotalUZS * s.discount_value / 100)
  else if s.discount_type = "amount" then s.discount_value
  else 0

def specDiscountUSD (s : Sale) : ℚ :=
  if s.discount_type = "percent" then
    quantize2up (s.itemsSubtotalUSD * s.discount_value / 100)
  else if s.discount_type = "amount" then s.discount_value
  else 0

def Sale.paidUZS (s : Sale) : ℚ := (s.payments.map SalePayment.amount_uzs).sum

def Sale.paidUSD (s : Sale) : ℚ := (s.payments.map SalePayment.amount_usd).sum

/-- Embeds `Sale.recompute_totals`. -/
def Sale.recompute_totals (s : Sale) : Sale :=
  { s with
    subtotal_uzs := s.itemsSubtotalUZS
    subtotal_usd := s.itemsSubtotalUSD
    total_uzs := quantize2 (s.itemsSubtotalUZS - s.discountUZS)
    total_usd := quantize2 (s.itemsSubtotalUSD - s.discountUSD)
    total_paid_uzs := s.paidUZS
    total_paid_usd := s.paidUSD
    change_due_uzs := max (s.paidUZS - quantize2 (s.itemsSubtotalUZS - s.discountUZS)) 0
    change_due_usd := max (s.paidUSD - quantize2 (s.itemsSubtotalUSD - s.discountUSD)) 0
    status :=
      if s.paidUZS ≥ quantize2 (s.itemsSubtotalUZS - s.discountUZS) then "paid"
      else if 0 < s.paidUZS then "partial"
      else "open" }

/-- The outbound movement `Sale.finalize` creates for one item. -/
def outboundOfItem (w : Nat) (it : SaleItem) : StockMovement :=
  { movement_type := "out", warehouse_from := some w, warehouse_to := none,
    product := it.product, part := it.part, quantity := it.quantity }

/-- Embeds `Sale.finalize`: inside one transaction, recompute totals,
apply one outbound movement per item, stamp `completed_at`. -/
def Sale.finalize (s : Sale) (l : Ledger) (now : Nat) :
    Except StockError (Sale × Ledger) :=
  let s1 := s.recompute_totals
  match applyMovList l (s.items.map (outboundOfItem s.warehouse)) with
  | .error e => .error e
  | .ok l' => .ok ({ s1 with completed_at := some now }, l')

/-- The state the database holds after a `finalize` call: the new state
on success, the rolled-back previous state on error. -/
def Sale.finalizeRun (s : Sale) (l : Ledger) (now : Nat) : Sale × Ledger :=
  match s.finalize l now with
  | .ok r => r
  | .error _ => (s, l)

/-- Total quantity the items demand of one (product, part) pair. -/
def itemsDemand : List SaleItem → Option Nat → Option Nat → Int
  | [], _, _ => 0
  | it :: rest, pr, pa =>
    (if it.product = pr ∧ it.part = pa then (it.quantity : Int) else 0) +
      itemsDemand rest pr pa

/-! ### Credit ledger (`CreditAccount`, `CreditEntry`) -/

structure CreditAccount where
  balance_uzs : ℚ
  balance_usd : ℚ
deriving DecidableEq

/-- A `CreditEntry` row; `pk` is `None` before first persistence. -/
structure CreditEntry where
  pk : Option Nat
  direction : String
  amount_uzs : ℚ
  amount_usd : ℚ
deriving DecidableEq

/-- Embeds `CreditEntry.apply_to_account`. -/
def CreditEntry.apply_to_account (e : CreditEntry) (a : CreditAccount) :
    CreditAccount :=
  let multiplier : ℚ := if e.direction = "debit" then 1 else -1
  { a with
    balance_uzs := quantize2 (a.balance_uzs + multiplier * e.amount_uzs)
    balance_usd := quantize2 (a.balance_usd + multiplier * e.amount_usd) }

/-- Embeds `CreditEntry.save`: persist the row (assigning a primary key
when it is new), then apply the delta to the account exactly when the
row was newly created. -/
def CreditEntry.save (e : CreditEntry) (a : CreditAccount) (freshPk : Nat) :
    CreditEntry × CreditAccount :=
  let isNew := e.pk = none
  let e1 : CreditEntry := { e with pk := some (e.pk.getD freshPk) }
  if isNew then (e1, e1.apply_to_account a) else (e1, a)

/-! ### Sale returns (`SaleReturn`, `SaleReturnItem`) -/

/-- A `SaleReturnItem` row; `sale_item` is the referenced original item. -/
structure SaleReturnItem where
  sale_item : SaleItem
  quantity : Nat
  refund_amount_uzs : ℚ
  refund_amount_usd : ℚ
deriving DecidableEq

structure SaleReturn where
  status : String
  items : List SaleReturnItem
  total_refunded_uzs : ℚ
  total_refunded_usd : ℚ
  processed_at : Option Nat
deriving DecidableEq

/-- The inbound movement `SaleReturn.process` creates for one line. -/
def inboundOfReturnItem (w : Nat) (ri : SaleReturnItem) : StockMovement :=
  { movement_type := "in", warehouse_from := none, warehouse_to := some w,
    product := ri.sale_item.product, part := ri.sale_item.part,
    quantity := ri.quantity }

/-- Refund totals accumulated over the return lines, per currency. -/
def refundSumUZS (ris : List SaleReturnItem) : ℚ :=
  (ris.map SaleReturnItem.refund_amount_uzs).sum

def refundSumUSD (ris : List SaleReturnItem) : ℚ :=
  (ris.map SaleReturnItem.refund_amount_usd).sum

/-- Total quantity the return lines put back for one (product, part). -/
def returnDemand : List SaleReturnItem → Option Nat → Option Nat → Int
  | [], _, _ => 0
  | ri :: rest, pr, pa =>
    (if ri.sale_item.product = pr ∧ ri.sale_item.part = pa
      then (ri.quantity : Int) else 0) + returnDemand rest pr pa

/-- Embeds `SaleReturn.process`: no-op when already completed, otherwise
restock every line, store refund totals, complete the return and force
the parent sale's status to `refunded`, all in one transaction. -/
def SaleReturn.process (r : SaleReturn) (sale : Sale) (l : Ledger) (now : Nat) :
    Except StockError (SaleReturn × Sale × Ledger) :=
  if r.status = "completed" then .ok (r, sale, l)
  else
    match applyMovList l (r.items.map (inboundOfReturnItem sale.warehouse)) with
    | .error e => .error e
    | .ok l' =>
      .ok ({ r with
              total_refunded_uzs := refundSumUZS r.items
              total_refunded_usd := refundSumUSD r.items
              status := "completed"
              processed_at := some now },
            { sale with status := "refunded" }, l')

/-! ### Inventory checks (`InventoryCheck`, `InventoryCheckLine`,
`InventoryCheckViewSet.apply_adjustments`) -/

/-- An `InventoryCheckLine` row; `stock` is the referenced stock row's
identity and `difference` the stored derived column. -/
structure InventoryCheckLine where
  stock : StockKey
  expected_quantity : Nat
  actual_quantity : Nat
  difference : Int
deriving DecidableEq

/-- Embeds `InventoryCheckLine.save`: recompute `difference`. -/
def InventoryCheckLine.saveCompute (line : InventoryCheckLine) :
    InventoryCheckLine :=
  { line with
    difference := (line.actual_quantity : Int) - (line.expected_quantity : Int) }

structure InventoryCheck where
  status : String
  lines : List InventoryCheckLine
deriving DecidableEq

inductive AdjustError where
  | notCompleted
deriving DecidableEq

/-- The compensating movement record created for a nonzero difference:
inbound for a surplus, loss (of `abs(difference)`) for a shortage. -/
def mkAdjMovement (k : StockKey) (diff : Int) : StockMovement :=
  if 0 < diff then
    { movement_type := "in", warehouse_from := none, warehouse_to := some k.warehouse,
      product := k.product, part := k.part, quantity := diff.toNat }
  else
    { movement_type := "loss", warehouse_from := some k.warehouse, warehouse_to := none,
      product := k.product, part := k.part, quantity := diff.natAbs }

/-- The direct stock overwrites of the adjustment loop: every line with
a nonzero stored difference gets its stock row set to `actual_quantity`. -/
def overwriteLines (lines : List InventoryCheckLine) (l : Ledger) : Ledger :=
  lines.foldl
    (fun acc line =>
      if line.difference = 0 then acc
      else acc.setQty line.stock (line.actual_quantity : Int))
    l

/-- The movement records created by the adjustment loop, in order.
(The loop interleaves overwrites and record creation, but the two do
not interact: the records are created and never applied.) -/
def adjustmentMovs (lines : List InventoryCheckLine) : List StockMovement :=
  (lines.filter fun line => decide (line.difference ≠ 0)).map
    fun line => mkAdjMovement line.stock line.difference

/-- Embeds `InventoryCheckViewSet.apply_adjustments`: reject checks that
are not completed, otherwise overwrite stock quantities to the counted
values and record (without applying) one compensating movement per
nonzero difference. -/
def InventoryCheck.apply_adjustments (c : InventoryCheck) (l : Ledger) :
    Except AdjustError (Ledger × List StockMovement) :=
  if c.status ≠ "completed" then .error .notCompleted
  else .ok (overwriteLines c.lines l, adjustmentMovs c.lines)

/-! ### Rounding lemmas -/

theorem roundHalfEven_intCast (n : ℤ) : roundHalfEven (n : ℚ) = n := by
  unfold roundHalfEven
  simp

theorem quantize2_of_Is2dp {x : ℚ} (h : Is2dp x) : quantize2 x = x := by
  unfold Is2dp at h
  unfold quantize2
  have hx : ((x * 100).num : ℚ) = x * 100 := by
    exact_mod_cast Rat.den_eq_one_iff (x * 100) |>.mp h
  rw [← hx, roundHalfEven_intCast, hx]
  field_simp

theorem Is2dp_iff (x : ℚ) : Is2dp x ↔ ∃ n : ℤ, x = (n : ℚ) / 100 := by
  constructor
  · intro h
    refine ⟨(x * 100).num, ?_⟩
    have hx : ((x * 100).num : ℚ) = x * 100 :=
      by exact_mod_cast Rat.den_eq_one_iff (x * 100) |>.mp h
    rw [hx]
    ring
  · rintro ⟨n, rfl⟩
    unfold Is2dp
    have : (n : ℚ) / 100 * 100 = (n : ℚ) := by ring
    rw [this]
    exact Rat.den_intCast n

theorem Is2dp_zero : Is2dp 0 := by
  rw [Is2dp_iff]
  exact ⟨0, by norm_num⟩

theorem Is2dp_add {x y : ℚ} (hx : Is2dp x) (hy : Is2dp y) : Is2dp (x + y) := by
  rw [Is2dp_iff] at hx hy ⊢
  obtain ⟨m, rfl⟩ := hx
  obtain ⟨n, rfl⟩ := hy
  exact ⟨m + n, by push_cast; ring⟩

theorem Is2dp_neg {x : ℚ} (hx : Is2dp x) : Is2dp (-x) := by
  rw [Is2dp_iff] at hx ⊢
  obtain ⟨m, rfl⟩ := hx
  exact ⟨-m, by push_cast; ring⟩

theorem quantize2_add_exact {x y : ℚ} (hx : Is2dp x) (hy : Is2dp y) :
    quantize2 (x + y) = x + y :=
  quantize2_of_Is2dp (Is2dp_add hx hy)

/-! ### Basic ledger lemmas -/

theorem getQty_setQty_self (l : Ledger) (k : StockKey) (q : Int) :
    (l.setQty k q).getQty k = q := by
  induction l with
  | nil => simp [Ledger.setQty, Ledger.getQty]
  | cons p rest ih =>
    by_cases h : p.1 = k
    · simp [Ledger.setQty, Ledger.getQty, h]
    · simp [Ledger.setQty, Ledger.getQty, h, ih]

theorem getQty_setQty_ne (l : Ledger) (k k' : StockKey) (q : Int) (h : k' ≠ k) :
    (l.setQty k q).getQty k' = l.getQty k' := by
  induction l with
  | nil => simp [Ledger.setQty, Ledger.getQty, Ne.symm h]
  | cons p rest ih =>
    by_cases hp : p.1 = k
    · subst hp
      simp [Ledger.setQty, Ledger.getQty, Ne.symm h]
    · by_cases hp' : p.1 = k'
      · simp [Ledger.setQty, Ledger.getQty, hp, hp', h]
      · simp [Ledger.setQty, Ledger.getQty, hp, hp', ih]

theorem nonneg_setQty {l : Ledger} (h : l.nonneg) (k : StockKey) {q : Int}
    (hq : 0 ≤ q) : (l.setQty k q).nonneg := by
  induction l with
  | nil =>
    intro p hp
    simp [Ledger.setQty] at hp
    simp [hp, hq]
  | cons hd rest ih =>
    have hhd : 0 ≤ hd.2 := h hd (by simp)
    have hrest : Ledger.nonneg rest := fun p hp => h p (List.mem_cons_of_mem _ hp)
    intro p hp
    by_cases hk : hd.1 = k
    · simp [Ledger.setQty, hk] at hp
      rcases hp with hp | hp
      · simp [hp, hq]
      · exact hrest p hp
    · simp [Ledger.setQty, hk] at hp
      rcases hp with hp | hp
      · simp [hp]; exact hhd
      · exact ih hrest p hp

theorem nonneg_getQty {l : Ledger} (h : l.nonneg) (k : StockKey) :
    0 ≤ l.getQty k := by
  induction l with
  | nil => simp [Ledger.getQty]
  | cons p rest ih =>
    have hrest : Ledger.nonneg rest := fun q hq => h q (List.mem_cons_of_mem _ hq)
    by_cases hp : p.1 = k
    · simpa [Ledger.getQty, hp] using h p (by simp)
    · simpa [Ledger.getQty, hp] using ih hrest

/-! ### `_adjust_stock` lemmas -/

theorem adjustStock_ok {l : Ledger} {w : Nat} {δ : Int} {pr pa : Option Nat}
    (h : 0 ≤ l.getQty ⟨w, pr, pa⟩ + δ) :
    adjustStock l (some w) δ pr pa =
      .ok (l.setQty ⟨w, pr, pa⟩ (l.getQty ⟨w, pr, pa⟩ + δ)) := by
  simp [adjustStock, not_lt.mpr h]

theorem adjustStock_insufficient {l : Ledger} {w : Nat} {δ : Int}
    {pr pa : Option Nat} (h : l.getQty ⟨w, pr, pa⟩ + δ < 0) :
    adjustStock l (some w) δ pr pa = .error .insufficientStock := by
  simp [adjustStock, h]

theorem adjustStock_ok_nonneg {l l' : Ledger} {w : Option Nat} {δ : Int}
    {pr pa : Option Nat} (hl : l.nonneg)
    (h : adjustStock l w δ pr pa = .ok l') : l'.nonneg := by
  cases w with
  | none => simp [adjustStock] at h
  | some w =>
    by_cases hneg : l.getQty ⟨w, pr, pa⟩ + δ < 0
    · simp [adjustStock, hneg] at h
    · simp [adjustStock, hneg] at h
      exact h ▸ nonneg_setQty hl _ (not_lt.mp hneg)

/-! ### `StockMovement.apply` case lemmas -/

theorem apply_transfer_missing {m : StockMovement} {l : Ledger}
    (ht : m.movement_type = "transfer")
    (h : m.warehouse_from = none ∨ m.warehouse_to = none) :
    m.apply l = .error .transferNeedsBothWarehouses := by
  rcases h with h | h <;> simp [StockMovement.apply, ht, h]

theorem apply_inbound {m : StockMovement} {l : Ledger}
    (ht : m.movement_type = "in") :
    m.apply l = adjustStock l m.warehouse_to (m.quantity : Int) m.product m.part := by
  simp [StockMovement.apply, ht]

theorem apply_outbound {m : StockMovement} {l : Ledger}
    (ht : m.movement_type = "out") :
    m.apply l = adjustStock l m.warehouse_from (-(m.quantity : Int)) m.product m.part := by
  simp [StockMovement.apply, ht]

theorem apply_loss {m : StockMovement} {l : Ledger}
    (ht : m.movement_type = "loss") :
    m.apply l = adjustStock l m.warehouse_from (-(m.quantity : Int)) m.product m.part := by
  simp [StockMovement.apply, ht]

theorem apply_unknown {m : StockMovement} {l : Ledger}
    (h1 : m.movement_type ≠ "transfer") (h2 : m.movement_type ≠ "in")
    (h3 : m.movement_type ≠ "out") (h4 : m.movement_type ≠ "loss") :
    m.apply l = .error .unknownMovementType := by
  simp [StockMovement.apply, h1, h2, h3, h4]

theorem apply_transfer_both {m : StockMovement} {l : Ledger} {wf wt : Nat}
    (ht : m.movement_type = "transfer")
    (hf : m.warehouse_from = some wf) (hw : m.warehouse_to = some wt) :
    m.apply l =
      match adjustStock l (some wf) (-(m.quantity : Int)) m.product m.part with
      | .error e => .error e
      | .ok l1 => adjustStock l1 (some wt) (m.quantity : Int) m.product m.part := by
  simp [StockMovement.apply, ht, hf, hw]

/-- Any successful `apply` keeps every stored quantity non-negative. -/
theorem apply_ok_nonneg {m : StockMovement} {l l' : Ledger} (hl : l.nonneg)
    (h : m.apply l = .ok l') : l'.nonneg := by
  unfold StockMovement.apply at h
  by_cases ht : m.movement_type = "transfer"
  · cases hwf : m.warehouse_from with
    | none => simp [ht, hwf] at h
    | some wf =>
      cases hwt : m.warehouse_to with
      | none => simp [ht, hwf, hwt] at h
      | some wt =>
        simp [ht, hwf, hwt] at h
        rcases h1 : adjustStock l (some wf) (-(m.quantity : Int)) m.product m.part with e | l1
        · rw [h1] at h; simp at h
        · rw [h1] at h; simp at h
          exact adjustStock_ok_nonneg (adjustStock_ok_nonneg hl h1) h
  · by_cases hi : m.movement_type = "in"
    · simp [ht, hi] at h
      exact adjustStock_ok_nonneg hl h
    · by_cases ho : m.movement_type = "out"
      · simp [ht, hi, ho] at h
        exact adjustStock_ok_nonneg hl h
      · by_cases hlo : m.movement_type = "loss"
        · simp [ht, hi, ho, hlo] at h
          exact adjustStock_ok_nonneg hl h
        · simp [ht, hi, ho, hlo] at h

theorem applyOrKeep_nonneg {l : Ledger} (hl : l.nonneg) (m : StockMovement) :
    (applyOrKeep l m).nonneg := by
  unfold applyOrKeep runExcept
  rcases h : m.apply l with e | l'
  · exact hl
  · exact apply_ok_nonneg hl h

theorem foldl_applyOrKeep_nonneg (ms : List StockMovement) :
    ∀ l : Ledger, l.nonneg → (List.foldl applyOrKeep l ms).nonneg := by
  induction ms with
  | nil => intro l hl; simpa using hl
  | cons m rest ih =>
    intro l hl
    simpa using ih (applyOrKeep l m) (applyOrKeep_nonneg hl m)

theorem adjustStock_ok_inv {l l' : Ledger} {w : Nat} {δ : Int} {pr pa : Option Nat}
    (h : adjustStock l (some w) δ pr pa = .ok l') :
    0 ≤ l.getQty ⟨w, pr, pa⟩ + δ ∧
      l' = l.setQty ⟨w, pr, pa⟩ (l.getQty ⟨w, pr, pa⟩ + δ) := by
  by_cases hneg : l.getQty ⟨w, pr, pa⟩ + δ < 0
  · simp [adjustStock, hneg] at h
  · simp [adjustStock, hneg] at h
    exact ⟨not_lt.mp hneg, h.symm⟩

theorem adjustStock_none {l : Ledger} {δ : Int} {pr pa : Option Nat} :
    adjustStock l none δ pr pa = .error .warehouseRequired := rfl

theorem runExcept_error {l : Ledger} {r : Except StockError Ledger} {e : StockError}
    (h : r = .error e) : runExcept l r = l := by
  simp [runExcept, h]

/-! ### Sequential application of the movements of a sale / return -/

theorem itemsDemand_nonneg (its : List SaleItem) (pr pa : Option Nat) :
    0 ≤ itemsDemand its pr pa := by
  induction its with
  | nil => simp [itemsDemand]
  | cons it rest ih =>
    unfold itemsDemand
    have : (0 : Int) ≤ if it.product = pr ∧ it.part = pa then (it.quantity : Int) else 0 := by
      split <;> simp
    omega

theorem applyOutboundList_ok (w : Nat) :
    ∀ (its : List SaleItem) (l : Ledger),
      (∀ pr pa, itemsDemand its pr pa ≤ l.getQty ⟨w, pr, pa⟩) →
      ∃ l', applyMovList l (its.map (outboundOfItem w)) = .ok l' ∧
        ∀ pr pa, l'.getQty ⟨w, pr, pa⟩ = l.getQty ⟨w, pr, pa⟩ - itemsDemand its pr pa := by
  intro its
  induction its with
  | nil =>
    intro l _
    exact ⟨l, rfl, by simp [itemsDemand]⟩
  | cons it rest ih =>
    intro l hsupply
    have hd0 := hsupply it.product it.part
    rw [itemsDemand, if_pos ⟨rfl, rfl⟩] at hd0
    have hq : (0 : Int) ≤ l.getQty ⟨w, it.product, it.part⟩ + -(it.quantity : Int) := by
      have := itemsDemand_nonneg rest it.product it.part
      omega
    have happ : (outboundOfItem w it).apply l =
        .ok (l.setQty ⟨w, it.product, it.part⟩
          (l.getQty ⟨w, it.product, it.part⟩ + -(it.quantity : Int))) := by
      rw [apply_outbound rfl]
      exact adjustStock_ok hq
    set l1 := l.setQty ⟨w, it.product, it.part⟩
      (l.getQty ⟨w, it.product, it.part⟩ + -(it.quantity : Int)) with hl1
    have hsupply1 : ∀ pr pa, itemsDemand rest pr pa ≤ l1.getQty ⟨w, pr, pa⟩ := by
      intro pr pa
      by_cases hm : it.product = pr ∧ it.part = pa
      · obtain ⟨h1, h2⟩ := hm
        subst h1; subst h2
        have := hsupply it.product it.part
        rw [itemsDemand, if_pos ⟨rfl, rfl⟩] at this
        rw [hl1, getQty_setQty_self]
        omega
      · have hne : (⟨w, pr, pa⟩ : StockKey) ≠ ⟨w, it.product, it.part⟩ := by
          simp only [ne_eq, StockKey.mk.injEq]
          intro hcon
          exact hm ⟨hcon.2.1.symm, hcon.2.2.symm⟩
        have := hsupply pr pa
        rw [itemsDemand, if_neg hm] at this
        rw [hl1, getQty_setQty_ne _ _ _ _ hne]
        omega
    obtain ⟨l', hrun, hchar⟩ := ih l1 hsupply1
    refine ⟨l', ?_, ?_⟩
    · simp only [List.map_cons, applyMovList, happ]
      exact hrun
    · intro pr pa
      have := hchar pr pa
      by_cases hm : it.product = pr ∧ it.part = pa
      · obtain ⟨h1, h2⟩ := hm
        subst h1; subst h2
        rw [hl1, getQty_setQty_self] at this
        rw [this, itemsDemand, if_pos ⟨rfl, rfl⟩]
        omega
      · have hne : (⟨w, pr, pa⟩ : StockKey) ≠ ⟨w, it.product, it.part⟩ := by
          simp only [ne_eq, StockKey.mk.injEq]
          intro hcon
          exact hm ⟨hcon.2.1.symm, hcon.2.2.symm⟩
        rw [hl1, getQty_setQty_ne _ _ _ _ hne] at this
        rw [this, itemsDemand, if_neg hm]
        omega

theorem applyOutboundList_insufficient (w : Nat) :
    ∀ (its : List SaleItem) (l : Ledger), l.nonneg →
      (∃ pr pa, l.getQty ⟨w, pr, pa⟩ < itemsDemand its pr pa) →
      applyMovList l (its.map (outboundOfItem w)) = .error .insufficientStock := by
  intro its
  induction its with
  | nil =>
    intro l hl ⟨pr, pa, hdef⟩
    rw [itemsDemand] at hdef
    exact absurd (nonneg_getQty hl ⟨w, pr, pa⟩) (by omega)
  | cons it rest ih =>
    intro l hl ⟨pr, pa, hdef⟩
    by_cases hfail : l.getQty ⟨w, it.product, it.part⟩ < (it.quantity : Int)
    · have hneg : l.getQty ⟨w, it.product, it.part⟩ + -(it.quantity : Int) < 0 := by
        omega
      have happ : (outboundOfItem w it).apply l = .error .insufficientStock := by
        rw [apply_outbound rfl]
        exact adjustStock_insufficient hneg
      simp only [List.map_cons, applyMovList, happ]
    · have hq : (0 : Int) ≤ l.getQty ⟨w, it.product, it.part⟩ + -(it.quantity : Int) := by
        omega
      have happ : (outboundOfItem w it).apply l =
          .ok (l.setQty ⟨w, it.product, it.part⟩
            (l.getQty ⟨w, it.product, it.part⟩ + -(it.quantity : Int))) := by
        rw [apply_outbound rfl]
        exact adjustStock_ok hq
      set l1 := l.setQty ⟨w, it.product, it.part⟩
        (l.getQty ⟨w, it.product, it.part⟩ + -(it.quantity : Int)) with hl1
      have hl1n : l1.nonneg := nonneg_setQty hl _ hq
      have hdef1 : ∃ pr pa, l1.getQty ⟨w, pr, pa⟩ < itemsDemand rest pr pa := by
        refine ⟨pr, pa, ?_⟩
        by_cases hm : it.product = pr ∧ it.part = pa
        · obtain ⟨h1, h2⟩ := hm
          subst h1; subst h2
          rw [itemsDemand, if_pos ⟨rfl, rfl⟩] at hdef
          rw [hl1, getQty_setQty_self]
          omega
        · have hne : (⟨w, pr, pa⟩ : StockKey) ≠ ⟨w, it.product, it.part⟩ := by
            simp only [ne_eq, StockKey.mk.injEq]
            intro hcon
            exact hm ⟨hcon.2.1.symm, hcon.2.2.symm⟩
          rw [itemsDemand, if_neg hm] at hdef
          rw [hl1, getQty_setQty_ne _ _ _ _ hne]
          omega
      simp only [List.map_cons, applyMovList, happ]
      exact ih l1 hl1n hdef1

theorem applyInboundList_ok (w : Nat) :
    ∀ (ris : List SaleReturnItem) (l : Ledger), l.nonneg →
      ∃ l', applyMovList l (ris.map (inboundOfReturnItem w)) = .ok l' ∧ l'.nonneg ∧
        ∀ pr pa, l'.getQty ⟨w, pr, pa⟩ = l.getQty ⟨w, pr, pa⟩ + returnDemand ris pr pa := by
  intro ris
  induction ris with
  | nil =>
    intro l hl
    exact ⟨l, rfl, hl, by simp [returnDemand]⟩
  | cons ri rest ih =>
    intro l hl
    have hq : (0 : Int) ≤ l.getQty ⟨w, ri.sale_item.product, ri.sale_item.part⟩ +
        (ri.quantity : Int) := by
      have := nonneg_getQty hl ⟨w, ri.sale_item.product, ri.sale_item.part⟩
      omega
    have happ : (inboundOfReturnItem w ri).apply l =
        .ok (l.setQty ⟨w, ri.sale_item.product, ri.sale_item.part⟩
          (l.getQty ⟨w, ri.sale_item.product, ri.sale_item.part⟩ + (ri.quantity : Int))) := by
      rw [apply_inbound rfl]
      exact adjustStock_ok hq
    set l1 := l.setQty ⟨w, ri.sale_item.product, ri.sale_item.part⟩
      (l.getQty ⟨w, ri.sale_item.product, ri.sale_item.part⟩ + (ri.quantity : Int)) with hl1
    have hl1n : l1.nonneg := nonneg_setQty hl _ hq
    obtain ⟨l', hrun, hn, hchar⟩ := ih l1 hl1n
    refine ⟨l', ?_, hn, ?_⟩
    · simp only [List.map_cons, applyMovList, happ]
      exact hrun
    · intro pr pa
      have := hchar pr pa
      by_cases hm : ri.sale_item.product = pr ∧ ri.sale_item.part = pa
      · obtain ⟨h1, h2⟩ := hm
        rw [hl1, h1, h2, getQty_setQty_self] at this
        rw [this, returnDemand, if_pos ⟨h1, h2⟩]
        omega
      · have hne : (⟨w, pr, pa⟩ : StockKey) ≠ ⟨w, ri.sale_item.product, ri.sale_item.part⟩ := by
          simp only [ne_eq, StockKey.mk.injEq]
          intro hcon
          exact hm ⟨hcon.2.1.symm, hcon.2.2.symm⟩
        rw [hl1, getQty_setQty_ne _ _ _ _ hne] at this
        rw [this, returnDemand, if_neg hm]
        omega

/-! ### Inventory-check overwrite lemmas -/

theorem overwriteLines_preserve :
    ∀ (lines : List InventoryCheckLine) (l : Ledger) (k : StockKey),
      (∀ line ∈ lines, line.stock ≠ k) →
      (overwriteLines lines l).getQty k = l.getQty k := by
  intro lines
  induction lines with
  | nil => intro l k _; rfl
  | cons hd rest ih =>
    intro l k hk
    have hhd : hd.stock ≠ k := hk hd (by simp)
    have hrest : ∀ line ∈ rest, line.stock ≠ k :=
      fun line hm => hk line (List.mem_cons_of_mem _ hm)
    by_cases hz : hd.difference = 0
    · simpa [overwriteLines, hz] using ih l k hrest
    · have : (overwriteLines (hd :: rest) l) =
          overwriteLines rest (l.setQty hd.stock (hd.actual_quantity : Int)) := by
        simp [overwriteLines, hz]
      rw [this, ih _ k hrest, getQty_setQty_ne _ _ _ _ (Ne.symm hhd)]

theorem overwriteLines_getQty :
    ∀ (lines : List InventoryCheckLine) (l : Ledger),
      List.Pairwise (fun a b => a.stock ≠ b.stock) lines →
      ∀ line ∈ lines, line.difference ≠ 0 →
        (overwriteLines lines l).getQty line.stock = (line.actual_quantity : Int) := by
  intro lines
  induction lines with
  | nil => intro l _ line hm; simp at hm
  | cons hd rest ih =>
    intro l hpw line hm hnz
    have hpw' := (List.pairwise_cons.mp hpw)
    rcases List.mem_cons.mp hm with hEq | hmem
    · subst hEq
      have hstep : (overwriteLines (line :: rest) l) =
          overwriteLines rest (l.setQty line.stock (line.actual_quantity : Int)) := by
        simp [overwriteLines, hnz]
      rw [hstep,
        overwriteLines_preserve rest _ line.stock
          (fun l' hl' => (hpw'.1 l' hl').symm),
        getQty_setQty_self]
    · by_cases hz : hd.difference = 0
      · have hstep : (overwriteLines (hd :: rest) l) = overwriteLines rest l := by
          simp [overwriteLines, hz]
        rw [hstep]
        exact ih l hpw'.2 line hmem hnz
      · have hstep : (overwriteLines (hd :: rest) l) =
            overwriteLines rest (l.setQty hd.stock (hd.actual_quantity : Int)) := by
          simp [overwriteLines, hz]
        rw [hstep]
        exact ih _ hpw'.2 line hmem hnz

/-! ## Claim theorems -/

/-- Claim C1: over any sequence of committed stock adjustments the
ledger's quantities stay non-negative, and a single adjustment whose
resulting quantity would be negative is rejected with the
insufficient-stock error, leaving the row unchanged. -/
theorem claim_stock_nonnegative :
    (∀ (l : Ledger) (w : Nat) (δ : Int) (pr pa : Option Nat),
        l.getQty ⟨w, pr, pa⟩ + δ < 0 →
          adjustStock l (some w) δ pr pa = .error .insufficientStock ∧
            runExcept l (adjustStock l (some w) δ pr pa) = l) ∧
    (∀ (l : Ledger) (ms : List StockMovement),
        l.nonneg →
          (List.foldl applyOrKeep l ms).nonneg ∧
            ∀ k, 0 ≤ (List.foldl applyOrKeep l ms).getQty k) := by
  constructor
  · intro l w δ pr pa h
    exact ⟨adjustStock_insufficient h, runExcept_error (adjustStock_insufficient h)⟩
  · intro l ms hl
    have h := foldl_applyOrKeep_nonneg ms l hl
    exact ⟨h, fun k => nonneg_getQty h k⟩

/-- Witness for C1 at concrete inputs: a deduction of 5 from a row
holding 3 is rejected, and a concrete movement sequence (an inbound of
5 then an over-large outbound of 100) keeps the ledger non-negative. -/
theorem claim_stock_nonnegative_witness :
    (Ledger.getQty [(⟨1, some 7, none⟩, 3)] ⟨1, some 7, none⟩ + (-5) < 0 ∧
      adjustStock [(⟨1, some 7, none⟩, 3)] (some 1) (-5) (some 7) none =
        .error .insufficientStock) ∧
    (Ledger.nonneg [(⟨1, some 7, none⟩, 3)] ∧
      (List.foldl applyOrKeep ([(⟨1, some 7, none⟩, 3)] : Ledger)
        [⟨"in", none, some 1, some 7, none, 5⟩,
         ⟨"out", some 1, none, some 7, none, 100⟩]).nonneg) :=
  ⟨⟨by decide, (claim_stock_nonnegative.1 _ 1 (-5) _ _ (by decide)).1⟩,
    by decide, (claim_stock_nonnegative.2 _ _ (by decide)).1⟩

/-- Claim C8: `apply` dispatches on the movement type — a transfer
needs both warehouses and on success moves `qty` from source to
destination (both adjustments or, on error, no committed change at
all); an inbound needs a destination and adds `qty`; an outbound or
loss needs a source and subtracts `qty`; every other type is an
unrecognized-movement-type error. -/
theorem claim_apply_dispatch :
    (∀ (m : StockMovement) (l : Ledger) (e : StockError),
        m.apply l = .error e → applyOrKeep l m = l) ∧
    (∀ (m : StockMovement) (l : Ledger), m.movement_type = "transfer" →
        (m.warehouse_from = none ∨ m.warehouse_to = none) →
        m.apply l = .error .transferNeedsBothWarehouses) ∧
    (∀ (m : StockMovement) (l l' : Ledger) (wf wt : Nat),
        m.movement_type = "transfer" → m.warehouse_from = some wf →
        m.warehouse_to = some wt → wf ≠ wt → m.apply l = .ok l' →
          l'.getQty ⟨wf, m.product, m.part⟩ =
            l.getQty ⟨wf, m.product, m.part⟩ - m.quantity ∧
          l'.getQty ⟨wt, m.product, m.part⟩ =
            l.getQty ⟨wt, m.product, m.part⟩ + m.quantity) ∧
    (∀ (m : StockMovement) (l : Ledger), m.movement_type = "in" →
        (m.warehouse_to = none → m.apply l = .error .warehouseRequired) ∧
        (∀ wt, m.warehouse_to = some wt → 0 ≤ l.getQty ⟨wt, m.product, m.part⟩ →
          m.apply l = .ok (l.setQty ⟨wt, m.product, m.part⟩
            (l.getQty ⟨wt, m.product, m.part⟩ + m.quantity)))) ∧
    (∀ (m : StockMovement) (l : Ledger),
        m.movement_type = "out" ∨ m.movement_type = "loss" →
        (m.warehouse_from = none → m.apply l = .error .warehouseRequired) ∧
        (∀ wf, m.warehouse_from = some wf →
          ((m.quantity : Int) ≤ l.getQty ⟨wf, m.product, m.part⟩ →
            m.apply l = .ok (l.setQty ⟨wf, m.product, m.part⟩
              (l.getQty ⟨wf, m.product, m.part⟩ - m.quantity))) ∧
          (l.getQty ⟨wf, m.product, m.part⟩ < (m.quantity : Int) →
            m.apply l = .error .insufficientStock))) ∧
    (∀ (m : StockMovement) (l : Ledger),
        m.movement_type ≠ "transfer" → m.movement_type ≠ "in" →
        m.movement_type ≠ "out" → m.movement_type ≠ "loss" →
        m.apply l = .error .unknownMovementType) := by
  refine ⟨?_, ?_, ?_, ?_, ?_, ?_⟩
  · intro m l e h
    simp [applyOrKeep, runExcept, h]
  · intro m l ht h
    exact apply_transfer_missing ht h
  · intro m l l' wf wt ht hf hw hne hok
    rw [apply_transfer_both ht hf hw] at hok
    rcases h1 : adjustStock l (some wf) (-(m.quantity : Int)) m.product m.part with e | l1
    · rw [h1] at hok; simp at hok
    · rw [h1] at hok; simp at hok
      obtain ⟨_, hl1⟩ := adjustStock_ok_inv h1
      obtain ⟨_, hl'⟩ := adjustStock_ok_inv hok
      have hkne : (⟨wf, m.product, m.part⟩ : StockKey) ≠ ⟨wt, m.product, m.part⟩ := by
        simp only [ne_eq, StockKey.mk.injEq]
        intro hcon
        exact hne hcon.1
      subst hl1
      subst hl'
      constructor
      · rw [getQty_setQty_ne _ _ _ _ hkne, getQty_setQty_self]
        omega
      · rw [getQty_setQty_self, getQty_setQty_ne _ _ _ _ (Ne.symm hkne)]
  · intro m l ht
    constructor
    · intro hn
      rw [apply_inbound ht, hn]
      exact adjustStock_none
    · intro wt hw hq
      rw [apply_inbound ht, hw]
      exact adjustStock_ok (by omega)
  · intro m l ht
    have happ : m.apply l =
        adjustStock l m.warehouse_from (-(m.quantity : Int)) m.product m.part := by
      rcases ht with ht | ht
      · exact apply_outbound ht
      · exact apply_loss ht
    constructor
    · intro hn
      rw [happ, hn]
      exact adjustStock_none
    · intro wf hw
      constructor
      · intro hq
        have h := @adjustStock_ok l wf (-(m.quantity : Int)) m.product m.part (by omega)
        rw [happ, hw, h, sub_eq_add_neg]
      · intro hq
        rw [happ, hw]
        exact adjustStock_insufficient (by omega)
  · intro m l h1 h2 h3 h4
    exact apply_unknown h1 h2 h3 h4

/-- Witness for C8 at concrete inputs: a successful transfer of 3 from
warehouse 1 (holding 5) to warehouse 2, a missing-warehouse inbound, an
insufficient outbound, and a movement of unknown type. -/
theorem claim_apply_dispatch_witness :
    ((StockMovement.mk "transfer" (some 1) (some 2) (some 7) none 3).apply
        [(⟨1, some 7, none⟩, 5)] =
      .ok [(⟨1, some 7, none⟩, 2), (⟨2, some 7, none⟩, 3)] ∧
      Ledger.getQty [(⟨1, some 7, none⟩, 2), (⟨2, some 7, none⟩, 3)]
          ⟨1, some 7, none⟩ =
        Ledger.getQty [(⟨1, some 7, none⟩, 5)] ⟨1, some 7, none⟩ - 3 ∧
      Ledger.getQty [(⟨1, some 7, none⟩, 2), (⟨2, some 7, none⟩, 3)]
          ⟨2, some 7, none⟩ =
        Ledger.getQty [(⟨1, some 7, none⟩, 5)] ⟨2, some 7, none⟩ + 3) ∧
    (StockMovement.mk "in" none none (some 7) none 4).apply [] =
      .error .warehouseRequired ∧
    (StockMovement.mk "out" (some 1) none (some 7) none 9).apply
        [(⟨1, some 7, none⟩, 5)] = .error .insufficientStock ∧
    (StockMovement.mk "bogus" (some 1) (some 2) (some 7) none 1).apply [] =
      .error .unknownMovementType := by
  have htr := claim_apply_dispatch.2.2.1
    (StockMovement.mk "transfer" (some 1) (some 2) (some 7) none 3)
    [(⟨1, some 7, none⟩, 5)]
    [(⟨1, some 7, none⟩, 2), (⟨2, some 7, none⟩, 3)]
    1 2 rfl rfl rfl (by decide) (by rfl)
  refine ⟨⟨by rfl, htr.1, htr.2⟩, ?_, ?_, ?_⟩
  · exact (claim_apply_dispatch.2.2.2.1
      (StockMovement.mk "in" none none (some 7) none 4) [] rfl).1 rfl
  · exact ((claim_apply_dispatch.2.2.2.2.1
      (StockMovement.mk "out" (some 1) none (some 7) none 9)
      [(⟨1, some 7, none⟩, 5)] (Or.inl rfl)).2 1 rfl).2 (by decide)
  · exact claim_apply_dispatch.2.2.2.2.2
      (StockMovement.mk "bogus" (some 1) (some 2) (some 7) none 1) []
      (by decide) (by decide) (by decide) (by decide)

/-- `finalize` on a successful movement application. -/
theorem finalize_eq_ok {s : Sale} {l l' : Ledger} {now : Nat}
    (h : applyMovList l (s.items.map (outboundOfItem s.warehouse)) = .ok l') :
    s.finalize l now =
      .ok ({ s.recompute_totals with completed_at := some now }, l') := by
  simp [Sale.finalize, h]

/-- A positive total demand is demanded by some item of the list. -/
theorem itemsDemand_zero_or_mem (its : List SaleItem) (pr pa : Option Nat) :
    itemsDemand its pr pa = 0 ∨ ∃ it ∈ its, it.product = pr ∧ it.part = pa := by
  induction its with
  | nil => exact Or.inl rfl
  | cons it rest ih =>
    by_cases hm : it.product = pr ∧ it.part = pa
    · exact Or.inr ⟨it, by simp, hm⟩
    · rcases ih with h | ⟨it', hmem, hm'⟩
      · left
        rw [itemsDemand, if_neg hm, h]
        omega
      · exact Or.inr ⟨it', List.mem_cons_of_mem _ hmem, hm'⟩

/-- Claim C2: if deducting the sale's items would drive some stock row
of the sale's warehouse negative, `finalize` fails with the
insufficient-stock error and commits nothing: the sale row and every
stock row are exactly as before the call. -/
theorem claim_finalize_atomic (s : Sale) (l : Ledger) (now : Nat)
    (hl : l.nonneg)
    (hdef : ∃ pr pa, l.getQty ⟨s.warehouse, pr, pa⟩ < itemsDemand s.items pr pa) :
    s.finalize l now = .error .insufficientStock ∧
      s.finalizeRun l now = (s, l) := by
  have herr := applyOutboundList_insufficient s.warehouse s.items l hl hdef
  constructor
  · simp [Sale.finalize, herr]
  · simp [Sale.finalizeRun, Sale.finalize, herr]

/-- Witness for C2: a sale of 5 units of product 7 against a warehouse
holding 3 fails to finalize and leaves sale and stock untouched. -/
theorem claim_finalize_atomic_witness :
    Ledger.nonneg [(⟨1, some 7, none⟩, 3)] ∧
    Ledger.getQty [(⟨1, some 7, none⟩, 3)] ⟨1, some 7, none⟩ <
      itemsDemand [SaleItem.mk (some 7) none 5 0 0 0 0 0 0] (some 7) none ∧
    (Sale.mk 1 "none" 0 [SaleItem.mk (some 7) none 5 0 0 0 0 0 0] []
        0 0 0 0 0 0 0 0 "draft" none).finalize
      [(⟨1, some 7, none⟩, 3)] 11 = .error .insufficientStock ∧
    (Sale.mk 1 "none" 0 [SaleItem.mk (some 7) none 5 0 0 0 0 0 0] []
        0 0 0 0 0 0 0 0 "draft" none).finalizeRun
      [(⟨1, some 7, none⟩, 3)] 11 =
      (Sale.mk 1 "none" 0 [SaleItem.mk (some 7) none 5 0 0 0 0 0 0] []
        0 0 0 0 0 0 0 0 "draft" none, [(⟨1, some 7, none⟩, 3)]) :=
  ⟨by decide, by decide,
    (claim_finalize_atomic _ _ 11 (by decide) ⟨some 7, none, by decide⟩).1,
    (claim_finalize_atomic _ _ 11 (by decide) ⟨some 7, none, by decide⟩).2⟩

/-- Claim C9: `finalize` has no completion-timestamp guard — on a sale
whose warehouse stock covers two deductions, finalizing twice succeeds
both times and deducts every item's quantity twice. -/
theorem claim_finalize_twice_deducts_twice (s : Sale) (l : Ledger)
    (n1 n2 : Nat) (hl : l.nonneg)
    (hsupply : ∀ it ∈ s.items,
      2 * itemsDemand s.items it.product it.part ≤
        l.getQty ⟨s.warehouse, it.product, it.part⟩) :
    ∃ s1 l1 s2 l2,
      s.finalize l n1 = .ok (s1, l1) ∧
      s1.finalize l1 n2 = .ok (s2, l2) ∧
      ∀ pr pa, l2.getQty ⟨s.warehouse, pr, pa⟩ =
        l.getQty ⟨s.warehouse, pr, pa⟩ - 2 * itemsDemand s.items pr pa := by
  have hall : ∀ pr pa, 2 * itemsDemand s.items pr pa ≤
      l.getQty ⟨s.warehouse, pr, pa⟩ := by
    intro pr pa
    rcases itemsDemand_zero_or_mem s.items pr pa with h0 | ⟨it, hmem, h1, h2⟩
    · rw [h0]
      simpa using nonneg_getQty hl ⟨s.warehouse, pr, pa⟩
    · have := hsupply it hmem
      rw [h1, h2] at this
      exact this
  have h1supply : ∀ pr pa, itemsDemand s.items pr pa ≤
      l.getQty ⟨s.warehouse, pr, pa⟩ := by
    intro pr pa
    have := hall pr pa
    have := itemsDemand_nonneg s.items pr pa
    omega
  obtain ⟨l1, hrun1, hchar1⟩ := applyOutboundList_ok s.warehouse s.items l h1supply
  have h2supply : ∀ pr pa, itemsDemand s.items pr pa ≤
      l1.getQty ⟨s.warehouse, pr, pa⟩ := by
    intro pr pa
    have := hchar1 pr pa
    have := hall pr pa
    omega
  obtain ⟨l2, hrun2, hchar2⟩ := applyOutboundList_ok s.warehouse s.items l1 h2supply
  refine ⟨{ s.recompute_totals with completed_at := some n1 }, l1,
    { ({ s.recompute_totals with completed_at := some n1 } : Sale).recompute_totals
        with completed_at := some n2 }, l2, ?_, ?_, ?_⟩
  · exact finalize_eq_ok hrun1
  · exact finalize_eq_ok hrun2
  · intro pr pa
    have := hchar1 pr pa
    have := hchar2 pr pa
    omega

/-- Witness for C9: one item of quantity 2 against a stock of 5; the
hypotheses hold, so a second finalize leaves quantity 5 − 2·2 = 1. -/
theorem claim_finalize_twice_deducts_twice_witness :
    Ledger.nonneg [(⟨1, some 7, none⟩, 5)] ∧
    (∀ it ∈ [SaleItem.mk (some 7) none 2 0 0 0 0 0 0],
      2 * itemsDemand [SaleItem.mk (some 7) none 2 0 0 0 0 0 0]
          it.product it.part ≤
        Ledger.getQty [(⟨1, some 7, none⟩, 5)] ⟨1, it.product, it.part⟩) ∧
    ∃ s1 l1 s2 l2,
      (Sale.mk 1 "none" 0 [SaleItem.mk (some 7) none 2 0 0 0 0 0 0] []
          0 0 0 0 0 0 0 0 "draft" none).finalize
        [(⟨1, some 7, none⟩, 5)] 21 = .ok (s1, l1) ∧
      s1.finalize l1 22 = .ok (s2, l2) ∧
      ∀ pr pa, l2.getQty ⟨1, pr, pa⟩ =
        Ledger.getQty [(⟨1, some 7, none⟩, 5)] ⟨1, pr, pa⟩ -
          2 * itemsDemand [SaleItem.mk (some 7) none 2 0 0 0 0 0 0] pr pa :=
  ⟨by decide, by decide,
    claim_finalize_twice_deducts_twice _ _ 21 22 (by decide) (by decide)⟩

/-- The status stored by `recompute_totals`, read back from the stored
paid/total columns: the source's `if/elif/else` chain compares only the
UZS columns. -/
theorem recompute_status (s : Sale) :
    (s.recompute_totals).status =
      if (s.recompute_totals).total_paid_uzs ≥ (s.recompute_totals).total_uzs
        then "paid"
      else if 0 < (s.recompute_totals).total_paid_uzs then "partial"
      else "open" := rfl

/-- Counterexample to C3 as stated: a sale with no items and no
payments recomputes to `paid = 0` yet status `"paid"` (the `paid ≥
total` branch fires first since `total = 0`), not `"open"` as the
claim's `paid == 0 ⇒ open` clause demands. -/
theorem claim_recompute_status_counterexample :
    ((Sale.mk 1 "none" 0 [] [] 0 0 0 0 0 0 0 0 "draft" none).recompute_totals).total_paid_uzs
        = 0 ∧
    ((Sale.mk 1 "none" 0 [] [] 0 0 0 0 0 0 0 0 "draft" none).recompute_totals).status
        = "paid" ∧
    ((Sale.mk 1 "none" 0 [] [] 0 0 0 0 0 0 0 0 "draft" none).recompute_totals).status
        ≠ "open" := by
  refine ⟨by simp [Sale.recompute_totals, Sale.paidUZS], ?_, ?_⟩
  · norm_num [Sale.recompute_totals, Sale.paidUZS, Sale.itemsSubtotalUZS,
      Sale.discountUZS, quantize2, roundHalfEven]
  · norm_num [Sale.recompute_totals, Sale.paidUZS, Sale.itemsSubtotalUZS,
      Sale.discountUZS, quantize2, roundHalfEven]
    decide

/-- Claim C3 (amended): after recompute the status is the ordered
function of the UZS paid/total columns — `paid ≥ total` gives `paid`
(this case takes precedence), `0 < paid < total` gives
`partially_paid`, and `paid = 0` gives `open` provided `0 < total`. -/
theorem claim_recompute_status (s : Sale) :
    ((s.recompute_totals).total_paid_uzs ≥ (s.recompute_totals).total_uzs →
      (s.recompute_totals).status = "paid") ∧
    (0 < (s.recompute_totals).total_paid_uzs →
      (s.recompute_totals).total_paid_uzs < (s.recompute_totals).total_uzs →
      (s.recompute_totals).status = "partial") ∧
    ((s.recompute_totals).total_paid_uzs = 0 →
      0 < (s.recompute_totals).total_uzs →
      (s.recompute_totals).status = "open") := by
  have hst := recompute_status s
  set p := (s.recompute_totals).total_paid_uzs with hp
  set t := (s.recompute_totals).total_uzs with ht
  by_cases h1 : p ≥ t
  · rw [if_pos h1] at hst
    exact ⟨fun _ => hst,
      fun _ hlt => absurd h1 (not_le.mpr hlt),
      fun hz hpos => absurd h1 (not_le.mpr (by rw [hz]; exact hpos))⟩
  · rw [if_neg h1] at hst
    by_cases h2 : 0 < p
    · rw [if_pos h2] at hst
      exact ⟨fun hge => absurd hge h1, fun _ _ => hst,
        fun hz _ => absurd h2 (by rw [hz]; exact lt_irrefl 0)⟩
    · rw [if_neg h2] at hst
      exact ⟨fun hge => absurd hge h1, fun hpos _ => absurd hpos h2,
        fun _ _ => hst⟩

/-- Witness for the amended C3: a sale totalling 10 UZS with a 4 UZS
payment recomputes to status `"partial"`. -/
theorem claim_recompute_status_witness :
    0 < ((Sale.mk 1 "none" 0 [SaleItem.mk (some 7) none 1 10 0 0 0 10 0]
        [SalePayment.mk "cash" 4 0] 0 0 0 0 0 0 0 0 "draft" none).recompute_totals).total_paid_uzs ∧
    ((Sale.mk 1 "none" 0 [SaleItem.mk (some 7) none 1 10 0 0 0 10 0]
        [SalePayment.mk "cash" 4 0] 0 0 0 0 0 0 0 0 "draft" none).recompute_totals).total_paid_uzs <
      ((Sale.mk 1 "none" 0 [SaleItem.mk (some 7) none 1 10 0 0 0 10 0]
        [SalePayment.mk "cash" 4 0] 0 0 0 0 0 0 0 0 "draft" none).recompute_totals).total_uzs ∧
    ((Sale.mk 1 "none" 0 [SaleItem.mk (some 7) none 1 10 0 0 0 10 0]
        [SalePayment.mk "cash" 4 0] 0 0 0 0 0 0 0 0 "draft" none).recompute_totals).status
      = "partial" := by
  have h2 : (0 : ℚ) <
      ((Sale.mk 1 "none" 0 [SaleItem.mk (some 7) none 1 10 0 0 0 10 0]
        [SalePayment.mk "cash" 4 0] 0 0 0 0 0 0 0 0 "draft" none).recompute_totals).total_paid_uzs := by
    norm_num [Sale.recompute_totals, Sale.paidUZS]
  have h3 :
      ((Sale.mk 1 "none" 0 [SaleItem.mk (some 7) none 1 10 0 0 0 10 0]
        [SalePayment.mk "cash" 4 0] 0 0 0 0 0 0 0 0 "draft" none).recompute_totals).total_paid_uzs <
      ((Sale.mk 1 "none" 0 [SaleItem.mk (some 7) none 1 10 0 0 0 10 0]
        [SalePayment.mk "cash" 4 0] 0 0 0 0 0 0 0 0 "draft" none).recompute_totals).total_uzs := by
    norm_num [Sale.recompute_totals, Sale.paidUZS, Sale.itemsSubtotalUZS,
      Sale.discountUZS, quantize2, roundHalfEven]
  exact ⟨h2, h3, (claim_recompute_status _).2.1 h2 h3⟩

/-- Claim C10: the recomputed status depends only on the UZS paid and
UZS total columns — two recomputed sales agreeing on those two values
get the same status whatever their USD columns hold — and a sale with
zero UZS payments against a positive UZS total is never `"paid"`. -/
theorem claim_status_depends_only_on_uzs :
    (∀ s1 s2 : Sale,
        (s1.recompute_totals).total_paid_uzs = (s2.recompute_totals).total_paid_uzs →
        (s1.recompute_totals).total_uzs = (s2.recompute_totals).total_uzs →
        (s1.recompute_totals).status = (s2.recompute_totals).status) ∧
    (∀ s : Sale, (s.recompute_totals).total_paid_uzs = 0 →
        0 < (s.recompute_totals).total_uzs →
        (s.recompute_totals).status ≠ "paid") := by
  constructor
  · intro s1 s2 hpaid htot
    rw [recompute_status s1, recompute_status s2, hpaid, htot]
  · intro s hz hpos
    have h1 : ¬((s.recompute_totals).total_paid_uzs ≥
        (s.recompute_totals).total_uzs) := by
      rw [hz]
      exact not_le.mpr hpos
    have h2 : ¬(0 < (s.recompute_totals).total_paid_uzs) := by
      rw [hz]
      exact lt_irrefl 0
    rw [recompute_status, if_neg h1, if_neg h2]
    decide

/-- Witness for C10: a sale with a positive UZS total fully paid in USD
(and zero UZS payments) agrees on the UZS columns with the same sale
paid a different USD amount, so both get one status; and that sale is
not marked `"paid"`. -/
theorem claim_status_depends_only_on_uzs_witness :
    ((Sale.mk 1 "none" 0 [SaleItem.mk (some 7) none 1 120000 10 0 0 120000 10]
        [SalePayment.mk "cash" 0 10] 0 0 0 0 0 0 0 0 "draft" none).recompute_totals).status =
      ((Sale.mk 1 "none" 0 [SaleItem.mk (some 7) none 1 120000 10 0 0 120000 10]
        [SalePayment.mk "cash" 0 99] 0 0 0 0 0 0 0 0 "draft" none).recompute_totals).status ∧
    ((Sale.mk 1 "none" 0 [SaleItem.mk (some 7) none 1 120000 10 0 0 120000 10]
        [SalePayment.mk "cash" 0 10] 0 0 0 0 0 0 0 0 "draft" none).recompute_totals).total_paid_uzs = 0 ∧
    0 < ((Sale.mk 1 "none" 0 [SaleItem.mk (some 7) none 1 120000 10 0 0 120000 10]
        [SalePayment.mk "cash" 0 10] 0 0 0 0 0 0 0 0 "draft" none).recompute_totals).total_uzs ∧
    ((Sale.mk 1 "none" 0 [SaleItem.mk (some 7) none 1 120000 10 0 0 120000 10]
        [SalePayment.mk "cash" 0 10] 0 0 0 0 0 0 0 0 "draft" none).recompute_totals).status ≠
      "paid" := by
  have hz : ((Sale.mk 1 "none" 0 [SaleItem.mk (some 7) none 1 120000 10 0 0 120000 10]
      [SalePayment.mk "cash" 0 10] 0 0 0 0 0 0 0 0 "draft" none).recompute_totals).total_paid_uzs
      = 0 := by
    simp [Sale.recompute_totals, Sale.paidUZS]
  have hpos : 0 <
      ((Sale.mk 1 "none" 0 [SaleItem.mk (some 7) none 1 120000 10 0 0 120000 10]
        [SalePayment.mk "cash" 0 10] 0 0 0 0 0 0 0 0 "draft" none).recompute_totals).total_uzs := by
    norm_num [Sale.recompute_totals, Sale.paidUZS, Sale.itemsSubtotalUZS,
      Sale.discountUZS, quantize2, roundHalfEven]
  refine ⟨?_, hz, hpos, claim_status_depends_only_on_uzs.2 _ hz hpos⟩
  exact claim_status_depends_only_on_uzs.1 _ _
    (by simp [Sale.recompute_totals, Sale.paidUZS]) rfl

/-- Counterexample to C4 as stated: (a) the percent-policy discount is
rounded with the decimal default (half-to-even), not half-up — on a
subtotal of 0.25 with a 50% discount the source's total is 0.13 while
the claimed half-up computation gives 0.12; (b) under the amount policy
the source applies the fixed value to UZS only, leaving the USD
discount 0 — on a USD subtotal of 10 with `discount_value = 5` the
source's USD total is 10, not the claimed 5. -/
theorem claim_discount_policy_counterexample :
    (((Sale.mk 1 "percent" 50 [SaleItem.mk (some 7) none 1 0 0 0 0 (1/4) 0] []
          0 0 0 0 0 0 0 0 "draft" none).recompute_totals).total_uzs = 13/100 ∧
      quantize2up
        (Sale.itemsSubtotalUZS (Sale.mk 1 "percent" 50
            [SaleItem.mk (some 7) none 1 0 0 0 0 (1/4) 0] []
            0 0 0 0 0 0 0 0 "draft" none) -
          specDiscountUZS (Sale.mk 1 "percent" 50
            [SaleItem.mk (some 7) none 1 0 0 0 0 (1/4) 0] []
            0 0 0 0 0 0 0 0 "draft" none)) = 12/100) ∧
    (((Sale.mk 1 "amount" 5 [SaleItem.mk (some 7) none 1 0 0 0 0 100 10] []
          0 0 0 0 0 0 0 0 "draft" none).recompute_totals).total_usd = 10 ∧
      quantize2up
        (Sale.itemsSubtotalUSD (Sale.mk 1 "amount" 5
            [SaleItem.mk (some 7) none 1 0 0 0 0 100 10] []
            0 0 0 0 0 0 0 0 "draft" none) -
          specDiscountUSD (Sale.mk 1 "amount" 5
            [SaleItem.mk (some 7) none 1 0 0 0 0 100 10] []
            0 0 0 0 0 0 0 0 "draft" none)) = 5) := by
  refine ⟨⟨?_, ?_⟩, ?_, ?_⟩ <;>
    norm_num [Sale.recompute_totals, Sale.itemsSubtotalUZS, Sale.itemsSubtotalUSD,
      Sale.discountUZS, Sale.discountUSD, specDiscountUZS, specDiscountUSD,
      quantize2, quantize2up, roundHalfEven, roundHalfUp,
      show ("amount" : String) ≠ "percent" by decide,
      show ("amount" : String) = "amount" from rfl]

/-- Claim C4 (amended): recompute stores `subtotal` as the per-currency
sum of line totals and `total = subtotal − discount` quantized to 2
decimals with the decimal default rounding (half-to-even), where the
discount is: under the percent policy `subtotal × percent / 100`
half-even-rounded per currency; under the amount policy the fixed
`discount_value` in UZS only (the USD discount stays 0); otherwise 0. -/
theorem claim_recompute_discount_totals (s : Sale) :
    ((s.recompute_totals).subtotal_uzs = s.itemsSubtotalUZS ∧
     (s.recompute_totals).subtotal_usd = s.itemsSubtotalUSD) ∧
    (s.discount_type = "percent" →
      (s.recompute_totals).total_uzs =
        quantize2 (s.itemsSubtotalUZS -
          quantize2 (s.itemsSubtotalUZS * s.discount_value / 100)) ∧
      (s.recompute_totals).total_usd =
        quantize2 (s.itemsSubtotalUSD -
          quantize2 (s.itemsSubtotalUSD * s.discount_value / 100))) ∧
    (s.discount_type = "amount" →
      (s.recompute_totals).total_uzs =
        quantize2 (s.itemsSubtotalUZS - s.discount_value) ∧
      (s.recompute_totals).total_usd =
        quantize2 (s.itemsSubtotalUSD - 0)) ∧
    (s.discount_type ≠ "percent" → s.discount_type ≠ "amount" →
      (s.recompute_totals).total_uzs = quantize2 (s.itemsSubtotalUZS - 0) ∧
      (s.recompute_totals).total_usd = quantize2 (s.itemsSubtotalUSD - 0)) := by
  refine ⟨⟨rfl, rfl⟩, ?_, ?_, ?_⟩
  · intro h
    constructor <;> simp [Sale.recompute_totals, Sale.discountUZS, Sale.discountUSD, h]
  · intro h
    constructor <;> simp [Sale.recompute_totals, Sale.discountUZS, Sale.discountUSD, h]
  · intro h1 h2
    constructor <;>
      simp [Sale.recompute_totals, Sale.discountUZS, Sale.discountUSD, h1, h2]

/-- Witness for the amended C4: an amount-policy sale with UZS subtotal
100, USD subtotal 10 and `discount_value = 5` recomputes to a UZS total
of 95 and a USD total of 10 (USD untouched by the amount discount). -/
theorem claim_recompute_discount_totals_witness :
    ((Sale.mk 1 "amount" 5 [SaleItem.mk (some 7) none 1 0 0 0 0 100 10] []
        0 0 0 0 0 0 0 0 "draft" none).recompute_totals).total_uzs = 95 ∧
    ((Sale.mk 1 "amount" 5 [SaleItem.mk (some 7) none 1 0 0 0 0 100 10] []
        0 0 0 0 0 0 0 0 "draft" none).recompute_totals).total_usd = 10 := by
  have h := (claim_recompute_discount_totals
    (Sale.mk 1 "amount" 5 [SaleItem.mk (some 7) none 1 0 0 0 0 100 10] []
      0 0 0 0 0 0 0 0 "draft" none)).2.2.1 rfl
  constructor
  · refine h.1.trans ?_
    norm_num [Sale.itemsSubtotalUZS, quantize2, roundHalfEven]
  · refine h.2.trans ?_
    norm_num [Sale.itemsSubtotalUSD, quantize2, roundHalfEven]

/-- Saving a fresh debit entry adds the amounts to the balances
exactly (the 2-decimal quantize is the identity on 2-decimal inputs). -/
theorem creditEntry_save_new_debit {e : CreditEntry} {a : CreditAccount}
    {fresh : Nat} (hpk : e.pk = none) (hdir : e.direction = "debit")
    (hb1 : Is2dp a.balance_uzs) (ha1 : Is2dp e.amount_uzs)
    (hb2 : Is2dp a.balance_usd) (ha2 : Is2dp e.amount_usd) :
    (e.save a fresh).2 =
      CreditAccount.mk (a.balance_uzs + e.amount_uzs)
        (a.balance_usd + e.amount_usd) := by
  simp only [CreditEntry.save, hpk, if_pos, CreditEntry.apply_to_account, hdir]
  simp only [if_pos rfl, one_mul]
  rw [quantize2_add_exact hb1 ha1, quantize2_add_exact hb2 ha2]

/-- Saving a fresh non-debit (credit) entry subtracts the amounts from
the balances exactly. -/
theorem creditEntry_save_new_credit {e : CreditEntry} {a : CreditAccount}
    {fresh : Nat} (hpk : e.pk = none) (hdir : e.direction ≠ "debit")
    (hb1 : Is2dp a.balance_uzs) (ha1 : Is2dp e.amount_uzs)
    (hb2 : Is2dp a.balance_usd) (ha2 : Is2dp e.amount_usd) :
    (e.save a fresh).2 =
      CreditAccount.mk (a.balance_uzs - e.amount_uzs)
        (a.balance_usd - e.amount_usd) := by
  simp only [CreditEntry.save, hpk, if_pos, CreditEntry.apply_to_account]
  simp only [if_neg hdir, neg_one_mul]
  rw [← sub_eq_add_neg, ← sub_eq_add_neg,
    sub_eq_add_neg a.balance_uzs, sub_eq_add_neg a.balance_usd,
    quantize2_add_exact hb1 (Is2dp_neg ha1),
    quantize2_add_exact hb2 (Is2dp_neg ha2)]

/-- Claim C5: a credit entry's delta is applied to the owning account
exactly once, at first persistence — a fresh debit adds the amount, a
fresh credit subtracts it (exactly, in both currencies, the 2-decimal
rounding being the identity on the stored 2-decimal values); re-saving
a persisted entry leaves the account unchanged; and a debit of X
followed by a credit of Y on a zero account yields balance X − Y. -/
theorem claim_credit_entry_applies_once :
    (∀ (e : CreditEntry) (a : CreditAccount) (fresh : Nat),
        e.pk = none → e.direction = "debit" →
        Is2dp a.balance_uzs → Is2dp e.amount_uzs →
        Is2dp a.balance_usd → Is2dp e.amount_usd →
        (e.save a fresh).2.balance_uzs = a.balance_uzs + e.amount_uzs ∧
        (e.save a fresh).2.balance_usd = a.balance_usd + e.amount_usd) ∧
    (∀ (e : CreditEntry) (a : CreditAccount) (fresh : Nat),
        e.pk = none → e.direction = "credit" →
        Is2dp a.balance_uzs → Is2dp e.amount_uzs →
        Is2dp a.balance_usd → Is2dp e.amount_usd →
        (e.save a fresh).2.balance_uzs = a.balance_uzs - e.amount_uzs ∧
        (e.save a fresh).2.balance_usd = a.balance_usd - e.amount_usd) ∧
    (∀ (e : CreditEntry) (a : CreditAccount) (fresh n : Nat),
        e.pk = some n → (e.save a fresh).2 = a) ∧
    (∀ (x y : ℚ) (p1 p2 : Nat), Is2dp x → Is2dp y →
        ((CreditEntry.mk none "credit" y y).save
            ((CreditEntry.mk none "debit" x x).save
              (CreditAccount.mk 0 0) p1).2 p2).2.balance_uzs = x - y) := by
  refine ⟨?_, ?_, ?_, ?_⟩
  · intro e a fresh hpk hdir hb1 ha1 hb2 ha2
    rw [creditEntry_save_new_debit hpk hdir hb1 ha1 hb2 ha2]
    exact ⟨rfl, rfl⟩
  · intro e a fresh hpk hdir hb1 ha1 hb2 ha2
    rw [creditEntry_save_new_credit hpk (by rw [hdir]; decide) hb1 ha1 hb2 ha2]
    exact ⟨rfl, rfl⟩
  · intro e a fresh n hpk
    simp [CreditEntry.save, hpk]
  · intro x y p1 p2 hx hy
    rw [@creditEntry_save_new_debit (CreditEntry.mk none "debit" x x)
      (CreditAccount.mk 0 0) p1 rfl rfl Is2dp_zero hx Is2dp_zero hx]
    rw [@creditEntry_save_new_credit (CreditEntry.mk none "credit" y y)
      (CreditAccount.mk (0 + x) (0 + x)) p2 rfl
      (show ("credit" : String) ≠ "debit" by decide)
      (by simpa using hx) hy (by simpa using hx) hy]
    simp

/-- Witness for C5: a debit of 2.47 then a credit of 0.12 on a zero
account leaves balance 2.35, and re-saving an already-persisted entry
leaves the account untouched. -/
theorem claim_credit_entry_applies_once_witness :
    ((CreditEntry.mk none "credit" (12/100) (12/100)).save
        ((CreditEntry.mk none "debit" (247/100) (247/100)).save
          (CreditAccount.mk 0 0) 1).2 2).2.balance_uzs = 247/100 - 12/100 ∧
    ((CreditEntry.mk (some 9) "debit" 7 7).save
        (CreditAccount.mk 1 2) 5).2 = CreditAccount.mk 1 2 :=
  ⟨claim_credit_entry_applies_once.2.2.2 (247/100) (12/100) 1 2
      (by rw [Is2dp_iff]; exact ⟨247, by norm_num⟩)
      (by rw [Is2dp_iff]; exact ⟨12, by norm_num⟩),
    claim_credit_entry_applies_once.2.2.1 _ _ 5 9 rfl⟩

/-- Claim C6: processing a not-yet-completed return restocks every
returned quantity into the parent sale's warehouse, stores the summed
refund totals per currency, completes the return with the timestamp and
forces the parent sale to `refunded`; processing an already-completed
return is a no-op (same state, no movement applied, no refund change). -/
theorem claim_return_process :
    (∀ (r : SaleReturn) (sale : Sale) (l : Ledger) (now : Nat),
        r.status = "completed" → r.process sale l now = .ok (r, sale, l)) ∧
    (∀ (r : SaleReturn) (sale : Sale) (l : Ledger) (now : Nat),
        r.status ≠ "completed" → l.nonneg →
        ∃ l', r.process sale l now = .ok
            ({ r with
                total_refunded_uzs := refundSumUZS r.items
                total_refunded_usd := refundSumUSD r.items
                status := "completed"
                processed_at := some now },
              { sale with status := "refunded" }, l') ∧
          ∀ pr pa, Ledger.getQty l' ⟨sale.warehouse, pr, pa⟩ =
            Ledger.getQty l ⟨sale.warehouse, pr, pa⟩ +
              returnDemand r.items pr pa) := by
  constructor
  · intro r sale l now hst
    simp [SaleReturn.process, hst]
  · intro r sale l now hne hl
    obtain ⟨l', hrun, _, hchar⟩ := applyInboundList_ok sale.warehouse r.items l hl
    refine ⟨l', ?_, hchar⟩
    simp [SaleReturn.process, hne, hrun]

/-- Witness for C6: returning 1 unit of product 7 (refund 120000 UZS /
10 USD) against warehouse 1 holding 3 completes the return, refunds the
totals, marks the sale refunded, and a completed return is a no-op. -/
theorem claim_return_process_witness :
    (SaleReturn.mk "completed"
        [SaleReturnItem.mk (SaleItem.mk (some 7) none 2 0 0 0 0 120000 10) 1 120000 10]
        0 0 (some 3)).process
      (Sale.mk 1 "none" 0 [] [] 0 0 0 0 0 0 0 0 "paid" none)
      [(⟨1, some 7, none⟩, 3)] 44 =
      .ok (SaleReturn.mk "completed"
        [SaleReturnItem.mk (SaleItem.mk (some 7) none 2 0 0 0 0 120000 10) 1 120000 10]
        0 0 (some 3),
        Sale.mk 1 "none" 0 [] [] 0 0 0 0 0 0 0 0 "paid" none,
        [(⟨1, some 7, none⟩, 3)]) ∧
    ∃ l', (SaleReturn.mk "draft"
        [SaleReturnItem.mk (SaleItem.mk (some 7) none 2 0 0 0 0 120000 10) 1 120000 10]
        0 0 none).process
      (Sale.mk 1 "none" 0 [] [] 0 0 0 0 0 0 0 0 "paid" none)
      [(⟨1, some 7, none⟩, 3)] 44 =
      .ok (SaleReturn.mk "completed"
          [SaleReturnItem.mk (SaleItem.mk (some 7) none 2 0 0 0 0 120000 10) 1 120000 10]
          (refundSumUZS
            [SaleReturnItem.mk (SaleItem.mk (some 7) none 2 0 0 0 0 120000 10) 1 120000 10])
          (refundSumUSD
            [SaleReturnItem.mk (SaleItem.mk (some 7) none 2 0 0 0 0 120000 10) 1 120000 10])
          (some 44),
        Sale.mk 1 "none" 0 [] [] 0 0 0 0 0 0 0 0 "refunded" none, l') ∧
      ∀ pr pa, Ledger.getQty l' ⟨1, pr, pa⟩ =
        Ledger.getQty [(⟨1, some 7, none⟩, 3)] ⟨1, pr, pa⟩ +
          returnDemand
            [SaleReturnItem.mk (SaleItem.mk (some 7) none 2 0 0 0 0 120000 10) 1 120000 10]
            pr pa :=
  ⟨claim_return_process.1 _ _ _ 44 rfl,
    claim_return_process.2 _
      (Sale.mk 1 "none" 0 [] [] 0 0 0 0 0 0 0 0 "paid" none)
      [(⟨1, some 7, none⟩, 3)] 44 (by decide) (by decide)⟩

/-- Claim C7: `apply_adjustments` rejects a check that is not completed
(mutating nothing); on a completed check every line with nonzero stored
difference gets its stock row overwritten to the counted quantity and
one compensating movement record — inbound of `difference` for a
surplus, loss of `|difference|` for a shortage — which is recorded but
never applied as a delta; `InventoryCheckLine.save` recomputes
`difference = actual − expected`. -/
theorem claim_apply_adjustments :
    (∀ line : InventoryCheckLine,
        (line.saveCompute).difference =
          (line.actual_quantity : Int) - (line.expected_quantity : Int)) ∧
    (∀ (c : InventoryCheck) (l : Ledger), c.status ≠ "completed" →
        c.apply_adjustments l = .error .notCompleted) ∧
    (∀ (c : InventoryCheck) (l : Ledger), c.status = "completed" →
        List.Pairwise (fun a b => a.stock ≠ b.stock) c.lines →
        ∃ l' movs, c.apply_adjustments l = .ok (l', movs) ∧
          movs.length =
            (c.lines.filter fun line => decide (line.difference ≠ 0)).length ∧
          ∀ line ∈ c.lines, line.difference ≠ 0 →
            Ledger.getQty l' line.stock = (line.actual_quantity : Int) ∧
            mkAdjMovement line.stock line.difference ∈ movs) ∧
    (∀ (k : StockKey) (d : Int), 0 < d →
        mkAdjMovement k d =
          StockMovement.mk "in" none (some k.warehouse) k.product k.part d.toNat) ∧
    (∀ (k : StockKey) (d : Int), d < 0 →
        mkAdjMovement k d =
          StockMovement.mk "loss" (some k.warehouse) none k.product k.part d.natAbs) := by
  refine ⟨?_, ?_, ?_, ?_, ?_⟩
  · intro line
    rfl
  · intro c l h
    simp [InventoryCheck.apply_adjustments, h]
  · intro c l h hpw
    refine ⟨overwriteLines c.lines l, adjustmentMovs c.lines, ?_, ?_, ?_⟩
    · simp [InventoryCheck.apply_adjustments, h]
    · simp [adjustmentMovs]
    · intro line hmem hnz
      refine ⟨overwriteLines_getQty c.lines l hpw line hmem hnz, ?_⟩
      exact List.mem_map_of_mem _
        (List.mem_filter.mpr ⟨hmem, by simpa using hnz⟩)
  · intro k d hd
    simp [mkAdjMovement, hd]
  · intro k d hd
    simp [mkAdjMovement, not_lt.mpr (le_of_lt hd)]

/-- Witness for C7 realising the spec's example: a completed check with
one line, expected 10 and actual 7, has stored difference −3; applying
adjustments sets the stock row to 7 and records one loss movement of
quantity 3; a draft check is rejected. -/
theorem claim_apply_adjustments_witness :
    ((InventoryCheckLine.mk ⟨1, some 7, none⟩ 10 7 0).saveCompute).difference = -3 ∧
    (InventoryCheck.mk "draft"
        [InventoryCheckLine.mk ⟨1, some 7, none⟩ 10 7 (-3)]).apply_adjustments
      [(⟨1, some 7, none⟩, 10)] = .error .notCompleted ∧
    mkAdjMovement ⟨1, some 7, none⟩ (-3) =
      StockMovement.mk "loss" (some 1) none (some 7) none 3 ∧
    ∃ l' movs,
      (InventoryCheck.mk "completed"
          [InventoryCheckLine.mk ⟨1, some 7, none⟩ 10 7 (-3)]).apply_adjustments
        [(⟨1, some 7, none⟩, 10)] = .ok (l', movs) ∧
      movs.length = 1 ∧
      Ledger.getQty l' ⟨1, some 7, none⟩ = 7 ∧
      mkAdjMovement ⟨1, some 7, none⟩ (-3) ∈ movs := by
  refine ⟨?_, ?_, ?_, ?_⟩
  · exact (claim_apply_adjustments.1
      (InventoryCheckLine.mk ⟨1, some 7, none⟩ 10 7 0)).trans (by decide)
  · exact claim_apply_adjustments.2.1 _ _ (by decide)
  · exact (claim_apply_adjustments.2.2.2.2 ⟨1, some 7, none⟩ (-3)
      (by decide)).trans (by decide)
  · obtain ⟨l', movs, h1, h2, h3⟩ := claim_apply_adjustments.2.2.1
      (InventoryCheck.mk "completed"
        [InventoryCheckLine.mk ⟨1, some 7, none⟩ 10 7 (-3)])
      [(⟨1, some 7, none⟩, 10)] rfl (by simp)
    obtain ⟨h4, h5⟩ := h3 (InventoryCheckLine.mk ⟨1, some 7, none⟩ 10 7 (-3))
      (by simp) (by decide)
    exact ⟨l', movs, h1, h2.trans (by decide), h4, h5⟩

end Inventory
